import Mathlib

/-!
Verification of the document-processing utilities of the ChainLitApp
repository (`utils.py` and `mcp_actions.py`) against its specification.

Python strings are modelled as lists of Unicode code points (`Pstr`),
which keeps lone surrogates representable so that the UTF-8
encodability check of `validate_content` is meaningful.  String
indices and Python slice semantics (negative indices counted from the
end, clamping at both ends) are modelled explicitly where the source
relies on them (`str.rfind` in `chunk_content`).
-/

/-- A Python string: a list of Unicode code points. -/
abbrev Pstr : Type := List Nat

/-- Embed a Lean string literal as a `Pstr` (its code points). -/
def pstr (s : String) : Pstr := s.data.map Char.toNat

/-- Length of a `Pstr`. -/
def plen (s : Pstr) : Nat := List.length s

/-- ASCII whitespace code points: the characters stripped by `str.strip()`
and matched by the regex class `\s` that the source uses (space, tab,
newline, vertical tab, form feed, carriage return). -/
def isSpaceCp (c : Nat) : Bool :=
  c == 32 || c == 9 || c == 10 || c == 11 || c == 12 || c == 13

def isDigitCp (c : Nat) : Bool := 48 ≤ c && c ≤ 57

def isUpperCp (c : Nat) : Bool := 65 ≤ c && c ≤ 90

def isLowerCp (c : Nat) : Bool := 97 ≤ c && c ≤ 122

def isAlphaCp (c : Nat) : Bool := isUpperCp c || isLowerCp c

/-- Python `str.strip()`: remove whitespace from both ends. -/
def stripP (s : Pstr) : Pstr :=
  ((List.dropWhile isSpaceCp s).reverse.dropWhile isSpaceCp).reverse

/-- Python `str.split('\n')`: split on newlines, keeping empty pieces
(so the empty string yields one empty line, as in Python). -/
def splitNL (s : Pstr) : List Pstr :=
  List.foldr
    (fun c acc =>
      if c == 10 then [] :: acc
      else
        match acc with
        | h :: t => (c :: h) :: t
        | [] => [[c]])
    [[]] s

/-- Python `'\n'.join(parts)`. -/
def joinNL (parts : List Pstr) : Pstr := List.intercalate [10] parts

/-- Python `str.split()` with no argument: split on whitespace runs,
discarding empty pieces. -/
def splitWS (s : Pstr) : List Pstr :=
  (List.foldr
    (fun c acc =>
      if isSpaceCp c then [] :: acc
      else
        match acc with
        | h :: t => (c :: h) :: t
        | [] => [[c]])
    [[]] s).filter (fun w => !w.isEmpty)

/-- Python `str(n)` for a natural number: its decimal digits. -/
def natStr (n : Nat) : Pstr := (Nat.toDigits 10 n).map Char.toNat

/-- Python `str.isupper()` (modelled over ASCII letters as the cased
characters): there is at least one cased character and every cased
character is upper case. -/
def isupperP (s : Pstr) : Bool :=
  List.any s isAlphaCp && List.all s (fun c => !isAlphaCp c || isUpperCp c)

/-- Python regex `re.match(r'^[0-9]+\.', s)`: one or more digits at the
start of the string, followed by a full stop. -/
def matchNumDot (s : Pstr) : Bool :=
  let ds := List.takeWhile isDigitCp s
  !ds.isEmpty && (List.headD (List.drop ds.length s) 0 == 46)

/-- Python regex `re.match(r'^[A-Z][A-Z\s]+$', s)`: an upper-case letter
followed by at least one more character, all of which are upper-case
letters or whitespace, spanning the whole string. -/
def matchCapsLine (s : Pstr) : Bool :=
  match s with
  | [] => false
  | c :: rest =>
    isUpperCp c && !rest.isEmpty && List.all rest (fun d => isUpperCp d || isSpaceCp d)

/-- The header test of `extract_sections` (utils.py lines 47-50): the
trimmed line is shorter than 100 characters and the raw line `isupper()`,
or the trimmed line starts with a numeric enumeration, or the trimmed
line is all caps with spaces. -/
def isHeaderLine (line : Pstr) : Bool :=
  plen (stripP line) < 100 &&
    (isupperP line || matchNumDot (stripP line) || matchCapsLine (stripP line))

/-- Insertion into a Python `dict` viewed as an insertion-ordered
association list: an existing key keeps its position and gets the new
value, a new key is appended. -/
def dictSet (d : List (Pstr × Pstr)) (k : Pstr) (v : Pstr) : List (Pstr × Pstr) :=
  if d.any (fun p => p.1 == k) then
    d.map (fun p => if p.1 == k then (k, v) else p)
  else
    d ++ [(k, v)]

/-- Flush the accumulated body lines into the mapping under the current
title, as `extract_sections` does: only when the buffer is non-empty,
joining the lines with newlines and trimming the outer edges. -/
def flushSection (secs : List (Pstr × Pstr)) (cur : Pstr) (acc : List Pstr) :
    List (Pstr × Pstr) :=
  if acc.isEmpty then secs else dictSet secs cur (stripP (joinNL acc))

/-- The line-by-line loop of `extract_sections` (utils.py lines 45-64),
carrying the mapping built so far, the current section title and the
accumulated body lines. -/
def sectionsLoop (lines : List Pstr) (secs : List (Pstr × Pstr)) (cur : Pstr)
    (acc : List Pstr) : List (Pstr × Pstr) :=
  match lines with
  | [] => flushSection secs cur acc
  | l :: ls =>
    if isHeaderLine l then
      sectionsLoop ls (flushSection secs cur acc) (stripP l) []
    else
      sectionsLoop ls secs cur (acc ++ [l])

/-- utils.py `extract_sections`: split the content into lines and run the
header-detection loop starting from the title "Introduction". -/
def extract_sections (content : Pstr) : List (Pstr × Pstr) :=
  sectionsLoop (splitNL content) [] (pstr "Introduction") []

/-- The code points replaced by `sanitize_filename`: `< > : " / \ | ? *`. -/
def badFilenameChar (c : Nat) : Bool :=
  c == 60 || c == 62 || c == 58 || c == 34 || c == 47 || c == 92 ||
    c == 124 || c == 63 || c == 42

/-- utils.py `sanitize_filename`: every dangerous character is replaced
by an underscore; when the substituted name is longer than 255
characters the truncation branch evaluates `os.path.splitext`, but
`utils.py` never imports `os`, so that branch raises `NameError` —
modelled as `none`. -/
def sanitize_filename (filename : Pstr) : Option Pstr :=
  let sanitized := filename.map (fun c => if badFilenameChar c then 95 else c)
  if plen sanitized ≤ 255 then some sanitized else none

/-- The result record of `validate_content`; the nested `stats` dict is
flattened into the three `stat_` fields. -/
structure ValidationResult where
  is_valid : Bool
  issues : List Pstr
  warnings : List Pstr
  stat_length : Nat
  stat_words : Nat
  stat_lines : Nat
deriving DecidableEq

/-- Python `str.encode('utf-8')` succeeds exactly when every code point
is a Unicode scalar value (no lone surrogate, below 0x110000). -/
def canEncodeUTF8 (s : Pstr) : Bool :=
  List.all s (fun c => (c < 0xD800 || (0xDFFF < c && c < 0x110000)))

/-- utils.py `validate_content`: the four checks in source order
(minimum length, maximum length warning, encodability, emptiness after
trimming), each appending its issue or warning. -/
def validate_content (content : Pstr) : ValidationResult :=
  let v0 : ValidationResult :=
    ⟨true, [], [], plen content, (splitWS content).length, (splitNL content).length⟩
  let v1 :=
    if plen (stripP content) < 10 then
      { v0 with
        is_valid := false
        issues := v0.issues ++ [pstr "Document content is too short (less than 10 characters)"] }
    else v0
  let v2 :=
    if 50000 < plen content then
      { v1 with warnings := v1.warnings ++
          [pstr "Document is very long and may take significant time to process"] }
    else v1
  let v3 :=
    if canEncodeUTF8 content then v2
    else
      { v2 with
        is_valid := false
        issues := v2.issues ++ [pstr "Document contains characters that cannot be processed"] }
  if plen (stripP content) == 0 then
    { v3 with
      is_valid := false
      issues := v3.issues ++ [pstr "Document appears to be empty or contains no readable text"] }
  else v3

/-- Python slice-index normalisation for `str.rfind(sub, i, j)`: a
negative index counts from the end of the string, and the result is
clamped into `[0, n]`. -/
def pyIdx (n : Nat) (i : Int) : Nat :=
  (Int.toNat (if i < 0 then i + n else i)).min n

/-- Python `content.rfind('.', lo, hi)`: the largest index `j` with
`lo' ≤ j < hi'` (after slice normalisation) holding a full stop, or
`none` when there is no such index (Python's `-1`). -/
def rfindDot (content : Pstr) (lo hi : Int) : Option Nat :=
  let a := pyIdx (plen content) lo
  let b := pyIdx (plen content) hi
  (List.range' a (b - a)).foldl
    (fun acc j => if List.getD content j 0 == 46 then some j else acc) none

/-- The chunk-end computation of `chunk_content` (utils.py lines
140-147): the candidate end is `start + chunk_size`; when it lies
strictly inside the content, the last full stop in the window
`[start + chunk_size - 200, start + chunk_size + 200)` moves the end to
just after it, provided its position exceeds `start`. -/
def chunkEnd (content : Pstr) (chunk_size start : Nat) : Nat :=
  let end0 := start + chunk_size
  if end0 < plen content then
    match rfindDot content ((start : Int) + chunk_size - 200) ((end0 : Int) + 200) with
    | some j => if start < j then j + 1 else end0
    | none => end0
  else end0

/-- The `while start < len(content)` loop of `chunk_content` (utils.py
lines 139-153), recording the `[start, end)` range of each carved
chunk.  The advance rule is `start = max(start + chunk_size - overlap,
end)`; natural subtraction agrees with Python's integer subtraction
here because the truncated value is taken in a `max` with `end ≥ 0`.
The recursion is fuel-indexed because the Python loop need not
terminate (e.g. `chunk_size = 0`); running out of fuel yields `none`. -/
def chunkLoop (content : Pstr) (chunk_size overlap : Nat) :
    Nat → Nat → Option (List (Nat × Nat))
  | 0, _ => none
  | fuel + 1, start =>
    if start < plen content then
      match chunkLoop content chunk_size overlap fuel
          (Nat.max (start + chunk_size - overlap) (chunkEnd content chunk_size start)) with
      | some rest => some ((start, chunkEnd content chunk_size start) :: rest)
      | none => none
    else some []

/-- The `[start, end)` offset ranges from which `chunk_content` carves
its chunks: the whole string when it fits in one chunk, otherwise the
ranges produced by the loop (with enough fuel for every terminating
run). -/
def chunkRanges (content : Pstr) (chunk_size overlap : Nat) :
    Option (List (Nat × Nat)) :=
  if plen content ≤ chunk_size then some [(0, plen content)]
  else chunkLoop content chunk_size overlap (plen content + 1) 0

/-- Python slice `content[a:b]` for already-normalised `0 ≤ a ≤ b`. -/
def pySlice (s : Pstr) (a b : Nat) : Pstr := (s.drop a).take (b - a)

/-- utils.py `chunk_content`: the chunks carved from the ranges. -/
def chunk_content (content : Pstr) (chunk_size overlap : Nat) :
    Option (List Pstr) :=
  (chunkRanges content chunk_size overlap).map
    (fun rs => rs.map (fun r => pySlice content r.1 r.2))

/-- A position of the content is covered by one of the carved ranges. -/
def coveredBy (rs : List (Nat × Nat)) (pos : Nat) : Prop :=
  ∃ r ∈ rs, r.1 ≤ pos ∧ pos < r.2

instance (rs : List (Nat × Nat)) (pos : Nat) : Decidable (coveredBy rs pos) :=
  inferInstanceAs (Decidable (∃ r ∈ rs, r.1 ≤ pos ∧ pos < r.2))

/-- One entry of the action catalog of `MCPActions` (mcp_actions.py):
a human label, a description and an instruction fragment. -/
structure McpAction where
  action_label : Pstr
  action_descr : Pstr
  action_instr : Pstr
deriving DecidableEq

/-- The fixed, insertion-ordered action catalog `self.actions` built in
`MCPActions.__init__` (mcp_actions.py lines 15-56), with the exact
strings of the source. -/
def actionsCatalog : List (Pstr × McpAction) :=
  [ (pstr "summarize",
      ⟨pstr "Summarize Document",
       pstr "Create a comprehensive summary of the document",
       pstr "Please provide a detailed summary of this document, highlighting the main points and key information."⟩),
    (pstr "analyze",
      ⟨pstr "Analyze Content",
       pstr "Perform in-depth analysis of themes, tone, and structure",
       pstr "Please analyze this document in detail, including themes, tone, writing style, structure, and any notable patterns or insights."⟩),
    (pstr "extract_key_points",
      ⟨pstr "Extract Key Points",
       pstr "Identify and list the most important points",
       pstr "Please extract and list the key points from this document in a clear, organized format."⟩),
    (pstr "generate_questions",
      ⟨pstr "Generate Questions",
       pstr "Create relevant questions based on the content",
       pstr "Generate thoughtful questions that could be asked about this document, including comprehension questions and discussion points."⟩),
    (pstr "identify_entities",
      ⟨pstr "Identify Entities",
       pstr "Extract named entities (people, places, organizations, dates)",
       pstr "Identify and categorize all named entities in this document, including people, places, organizations, dates, and other significant entities."⟩),
    (pstr "sentiment_analysis",
      ⟨pstr "Sentiment Analysis",
       pstr "Analyze the emotional tone and sentiment",
       pstr "Analyze the sentiment and emotional tone of this document, identifying positive, negative, and neutral elements."⟩),
    (pstr "action_items",
      ⟨pstr "Extract Action Items",
       pstr "Identify tasks, recommendations, and action items",
       pstr "Extract any action items, tasks, recommendations, or next steps mentioned in this document."⟩),
    (pstr "translate",
      ⟨pstr "Language Detection",
       pstr "Detect language and provide translation insights",
       pstr "Detect the primary language of this document and identify any foreign terms or phrases that might need translation."⟩) ]

/-- Python `self.actions.get(action_key)`. -/
def findAction (key : Pstr) : Option McpAction :=
  (actionsCatalog.find? (fun p => p.1 == key)).map (fun p => p.2)

/-- The numbered task lines appended by the loop
`for i, action_key in enumerate(selected_actions, 1)` of
`generate_prompt` (mcp_actions.py lines 79-82), starting the numbering
at `i`: an unknown key is skipped but still consumes its number. -/
def taskLinesFrom : Nat → List Pstr → List Pstr
  | _, [] => []
  | i, key :: keys =>
    match findAction key with
    | some a =>
      (natStr i ++ pstr ". " ++ a.action_label ++ pstr ": " ++ a.action_instr)
        :: taskLinesFrom (i + 1) keys
    | none => taskLinesFrom (i + 1) keys

/-- The fixed prompt lines placed before the task list by
`generate_prompt` (mcp_actions.py lines 68-77). -/
def promptHeaderParts (document_content : Pstr) : List Pstr :=
  [ pstr "You are an expert document analysis assistant. Please analyze the following document and complete the requested tasks.",
    [],
    pstr "DOCUMENT CONTENT:",
    List.replicate 50 61,
    document_content,
    List.replicate 50 61,
    [],
    pstr "REQUESTED ANALYSIS TASKS:" ]

/-- The fixed prompt lines placed after the task list by
`generate_prompt` (mcp_actions.py lines 84-94). -/
def promptFooterParts : List Pstr :=
  [ [],
    pstr "INSTRUCTIONS:",
    pstr "- Please complete each requested task thoroughly and professionally",
    pstr "- Structure your response clearly with headers for each task",
    pstr "- Provide detailed, actionable insights",
    pstr "- If any task cannot be completed due to document content limitations, explain why",
    pstr "- Use markdown formatting for better readability",
    [],
    pstr "Please begin your analysis:" ]

/-- mcp_actions.py `MCPActions.generate_prompt`: the empty string for an
empty selection, otherwise the newline-join of header, numbered task
lines and footer. -/
def generate_prompt (document_content : Pstr) (selected_actions : List Pstr) : Pstr :=
  if selected_actions.isEmpty then []
  else
    joinNL (promptHeaderParts document_content ++ taskLinesFrom 1 selected_actions
      ++ promptFooterParts)

/-- mcp_actions.py `MCPActions.process_with_ai`: the body of the `try`
block is a single awaited backend call, modelled by its outcome — a
reply string on success, the stringified exception on failure.  The
`except` branch folds the error text into an ordinarily returned
string. -/
def process_with_ai (backend : Except Pstr Pstr) : Pstr :=
  match backend with
  | Except.ok reply => reply
  | Except.error e =>
    pstr "Error processing with AI: " ++ e ++
      pstr "\n\nPlease check your API configuration and try again."

/-- mcp_actions.py `MCPActions.validate_actions`: keep the keys that are
present in the catalog, in input order. -/
def validate_actions (action_keys : List Pstr) : List Pstr :=
  action_keys.filter (fun key => actionsCatalog.any (fun p => p.1 == key))

/-- utils.py `format_response`: the header, rule, verbatim response,
rule and attribution footer, concatenated exactly as the source builds
them. -/
def format_response (ai_response : Pstr) (selected_actions : List Pstr)
    (document_name : Pstr := pstr "Unknown Document") : Pstr :=
  let r := pstr "# 📄 Document Analysis Results\n\n"
  let r := r ++ pstr "**Document:** " ++ document_name ++ pstr "\n"
  let r := r ++ pstr "**Actions Completed:** " ++ natStr selected_actions.length ++ pstr "\n\n"
  let r := r ++ pstr "---\n\n"
  let r := r ++ ai_response
  let r := r ++ pstr "\n\n---\n"
  let r := r ++ pstr "*Analysis completed by MCP Document Processing Agent*"
  r

/-- A 250-character document: ten letters, a full stop, then 239 more
letters.  Long enough to need two chunks at `chunk_size = 201`, with a
sentence boundary early in the backward search window. -/
def chunkDemoContent : Pstr := pstr "aaaaaaaaaa." ++ List.replicate 239 97


/-- Helper: the fold used by `rfindDot` yields an element of the scanned
list, unless it returns its initial accumulator. -/
theorem foldl_lastP_mem {p : Nat → Bool} :
    ∀ (l : List Nat) (init : Option Nat) (j : Nat),
      l.foldl (fun acc x => if p x then some x else acc) init = some j →
      j ∈ l ∨ init = some j := by
  intro l
  induction l with
  | nil => intro init j h; right; exact h
  | cons x xs ih =>
    intro init j h
    rcases ih _ j h with hj | hj
    · left; exact List.mem_cons_of_mem _ hj
    · by_cases hp : p x
      · simp only [hp, if_true] at hj
        left
        rw [Option.some_inj] at hj
        rw [hj]
        exact List.mem_cons_self _ _
      · simp only [hp, if_false, Bool.false_eq_true] at hj
        right
        exact hj

/-- Helper: a normalised slice index never exceeds the string length. -/
theorem pyIdx_le (n : Nat) (i : Int) : pyIdx n i ≤ n := Nat.min_le_right _ _

/-- Helper: an index found by `rfindDot` lies inside the normalised
search window. -/
theorem rfindDot_bounds {c : Pstr} {lo hi : Int} {j : Nat}
    (h : rfindDot c lo hi = some j) :
    pyIdx (plen c) lo ≤ j ∧ j < pyIdx (plen c) hi := by
  unfold rfindDot at h
  rcases foldl_lastP_mem _ _ _ h with hj | hj
  · rw [List.mem_range'_1] at hj
    omega
  · exact absurd hj (by simp)

/-- Helper: when `overlap ≥ 200`, the overlap-side candidate of the
advance rule never exceeds the chunk end, so the next start is exactly
the previous end and the ranges tile without gaps. -/
theorem chunkEnd_advance_le (content : Pstr) (cs start ov : Nat) (hov : 200 ≤ ov) :
    start + cs - ov ≤ chunkEnd content cs start := by
  rw [chunkEnd]
  split
  · rename_i hlt
    cases hfind : rfindDot content ((start : Int) + cs - 200) (((start + cs : Nat) : Int) + 200) with
    | none => simp only; omega
    | some j =>
      simp only
      split
      · have hb := rfindDot_bounds hfind
        have hle := pyIdx_le (plen content) (((start + cs : Nat) : Int) + 200)
        by_cases hcase : start + cs < 200
        · omega
        · have He : pyIdx (plen content) ((start : Int) + cs - 200) =
              Nat.min (Int.toNat ((start : Int) + cs - 200)) (plen content) := by
            unfold pyIdx
            rw [if_neg (by omega)]
          have Ht : Int.toNat ((start : Int) + cs - 200) = start + cs - 200 := by
            omega
          rw [He, Ht] at hb
          unfold Nat.min at hb
          omega
      · omega
  · omega

/-- Helper: with a positive chunk size the chunk end lies strictly past
the start, so the loop makes progress. -/
theorem chunkEnd_gt_start (content : Pstr) (cs start : Nat) (hcs : 1 ≤ cs) :
    start < chunkEnd content cs start := by
  rw [chunkEnd]
  split
  · cases hfind : rfindDot content ((start : Int) + cs - 200) (((start + cs : Nat) : Int) + 200) with
    | none => simp only; omega
    | some j =>
      simp only
      split
      · omega
      · omega
  · omega

/-- Helper: loop invariant for coverage — every position from the
current start to the end of the content is covered by the ranges a
successful run of the loop returns. -/
theorem chunkLoop_cover (content : Pstr) (cs ov : Nat) (hov : 200 ≤ ov) :
    ∀ (fuel start : Nat) (rs : List (Nat × Nat)),
      chunkLoop content cs ov fuel start = some rs →
      ∀ pos, start ≤ pos → pos < plen content → coveredBy rs pos := by
  intro fuel
  induction fuel with
  | zero =>
    intro start rs h
    exact absurd h (by simp [chunkLoop])
  | succ n ih =>
    intro start rs h pos hsp hpl
    rw [chunkLoop] at h
    split at h
    · rename_i hstart
      cases hrec : chunkLoop content cs ov n
          (Nat.max (start + cs - ov) (chunkEnd content cs start)) with
      | none => rw [hrec] at h; exact absurd h (by simp)
      | some rest =>
        rw [hrec] at h
        simp only [Option.some_inj] at h
        subst h
        by_cases hpe : pos < chunkEnd content cs start
        · exact ⟨(start, chunkEnd content cs start), by simp, hsp, hpe⟩
        · have hmax : Nat.max (start + cs - ov) (chunkEnd content cs start) =
              chunkEnd content cs start :=
            Nat.max_eq_right (chunkEnd_advance_le content cs start ov hov)
          rw [hmax] at hrec
          obtain ⟨r, hr, h1, h2⟩ := ih _ _ hrec pos (by omega) hpl
          exact ⟨r, List.mem_cons_of_mem _ hr, h1, h2⟩
    · simp only [Option.some_inj] at h
      subst h
      rename_i hstart
      exact absurd hpl (by unfold plen at *; omega)

/-- Helper: with a positive chunk size, fuel exceeding the remaining
length suffices for the loop to finish. -/
theorem chunkLoop_total (content : Pstr) (cs ov : Nat) (hcs : 1 ≤ cs) :
    ∀ (fuel start : Nat), plen content - start < fuel →
      (chunkLoop content cs ov fuel start).isSome = true := by
  intro fuel
  induction fuel with
  | zero => intro start h; omega
  | succ n ih =>
    intro start hf
    rw [chunkLoop]
    split
    · rename_i hstart
      have he := chunkEnd_gt_start content cs start hcs
      have hm : chunkEnd content cs start ≤
          Nat.max (start + cs - ov) (chunkEnd content cs start) :=
        Nat.le_max_right _ _
      have hrec := ih (Nat.max (start + cs - ov) (chunkEnd content cs start)) (by omega)
      cases hr : chunkLoop content cs ov n
          (Nat.max (start + cs - ov) (chunkEnd content cs start)) with
      | none => rw [hr] at hrec; simp at hrec
      | some rest => rfl
    · rfl

/-- Claim C1 (amended): for every content string and chunk_size, when
overlap ≥ 200 — the width of the backward sentence-boundary search
window — the `[start, end)` ranges from which `chunk_content` carves
its chunks cover every position of the content.  (As stated over all
overlap values the claim fails, see the counterexample: a smaller
overlap lets the sentence-boundary adjustment pull `end` below
`start + chunk_size - overlap`, leaving a gap.) -/
theorem chunk_ranges_cover_of_overlap_ge_200 (content : Pstr) (cs ov : Nat)
    (hov : 200 ≤ ov) (rs : List (Nat × Nat))
    (h : chunkRanges content cs ov = some rs)
    (pos : Nat) (hpos : pos < plen content) : coveredBy rs pos := by
  unfold chunkRanges at h
  split at h
  · simp only [Option.some_inj] at h
    subst h
    exact ⟨(0, plen content), by simp, Nat.zero_le _, hpos⟩
  · exact chunkLoop_cover content cs ov hov _ 0 rs h pos (Nat.zero_le _) hpos

set_option maxRecDepth 4000 in
/-- Counterexample to claim C1 as stated: at chunk_size 201 and
overlap 0, the 250-character demo document is carved into ranges
`[0, 11)` and `[201, 402)` — position 100 lies in neither. -/
theorem chunk_ranges_cover_counterexample :
    ∃ rs, chunkRanges chunkDemoContent 201 0 = some rs ∧
      100 < plen chunkDemoContent ∧ ¬ coveredBy rs 100 :=
  ⟨[(0, 11), (201, 402)], by decide, by decide, by decide⟩

set_option maxRecDepth 4000 in
/-- Witness for C1: on the demo document with chunk_size 201 and
overlap 200 the computed ranges cover position 100. -/
theorem chunk_ranges_cover_witness :
    coveredBy [(0, 11), (11, 212), (212, 413)] 100 :=
  chunk_ranges_cover_of_overlap_ge_200 chunkDemoContent 201 200 (by decide)
    [(0, 11), (11, 212), (212, 413)] (by decide) 100 (by decide)

/-- Helper: with chunk_size 0 and overlap 0 on `"abc"` the loop never
advances, so no amount of fuel completes it. -/
theorem chunkLoop_stuck_zero : ∀ fuel, chunkLoop (pstr "abc") 0 0 fuel 0 = none := by
  intro fuel
  induction fuel with
  | zero => rfl
  | succ n ih =>
    rw [chunkLoop]
    rw [if_pos (by decide)]
    rw [show Nat.max (0 + 0 - 0) (chunkEnd (pstr "abc") 0 0) = 0 from by decide]
    rw [ih]

/-- Counterexample to claim C2 as stated: at chunk_size 0, overlap 0,
content `"abc"`, the advance rule `max(start + 0 - 0, end)` makes no
progress and the loop never terminates. -/
theorem chunk_terminates_counterexample :
    chunk_content (pstr "abc") 0 0 = none ∧
    ¬ ∃ fuel rs, chunkLoop (pstr "abc") 0 0 fuel 0 = some rs := by
  constructor
  · decide
  · rintro ⟨fuel, rs, h⟩
    rw [chunkLoop_stuck_zero fuel] at h
    exact absurd h (by simp)

/-- Claim C2 (amended): for every content string, every overlap
(including overlap ≥ chunk_size and a failing sentence-boundary
search) and every chunk_size ≥ 1, the chunking loop terminates and
`chunk_content` returns a finite sequence.  (With chunk_size 0 the
advance rule makes no progress, see the counterexample.) -/
theorem chunk_content_terminates_of_pos_chunk_size (content : Pstr) (cs ov : Nat)
    (hcs : 1 ≤ cs) : ∃ chunks, chunk_content content cs ov = some chunks := by
  unfold chunk_content chunkRanges
  split
  · exact ⟨_, rfl⟩
  · have htot := chunkLoop_total content cs ov hcs (plen content + 1) 0 (by omega)
    cases h : chunkLoop content cs ov (plen content + 1) 0 with
    | none => rw [h] at htot; simp at htot
    | some rs => exact ⟨_, rfl⟩

/-- Witness for C2: chunking `"ab"` with chunk_size 1 and overlap 5
terminates even though overlap exceeds chunk_size. -/
theorem chunk_content_terminates_witness :
    ∃ chunks, chunk_content (pstr "ab") 1 5 = some chunks :=
  chunk_content_terminates_of_pos_chunk_size (pstr "ab") 1 5 (by decide)

/-- Helper: the section loop accumulates a run of non-header lines into
the body buffer without touching the mapping or the title. -/
theorem sectionsLoop_body (bs : List Pstr) (hb : ∀ l ∈ bs, isHeaderLine l = false) :
    ∀ (rest : List Pstr) (secs : List (Pstr × Pstr)) (cur : Pstr) (acc : List Pstr),
      sectionsLoop (bs ++ rest) secs cur acc = sectionsLoop rest secs cur (acc ++ bs) := by
  induction bs with
  | nil => intro rest secs cur acc; simp
  | cons b bs ih =>
    intro rest secs cur acc
    have hbb : isHeaderLine b = false := hb b (by simp)
    rw [List.cons_append, sectionsLoop, if_neg (by simp [hbb])]
    rw [ih (fun l hl => hb l (by simp [hl])) rest secs cur (acc ++ [b])]
    rw [List.append_assoc, List.singleton_append]

/-- Helper: running the section loop on non-header lines only flushes
them at the end of input. -/
theorem sectionsLoop_all_body (bs : List Pstr)
    (hb : ∀ l ∈ bs, isHeaderLine l = false) (secs : List (Pstr × Pstr))
    (cur : Pstr) (acc : List Pstr) :
    sectionsLoop bs secs cur acc = flushSection secs cur (acc ++ bs) := by
  have hs := sectionsLoop_body bs hb [] secs cur acc
  rw [List.append_nil] at hs
  rw [hs, sectionsLoop]

/-- Claim C4 (amended): on a document whose lines are exactly two
header-classified lines with distinct trimmed texts and non-header body
lines after each, `extract_sections` returns exactly two entries, keyed
by the trimmed header texts, whose bodies are the lines between the
headers joined by newlines and trimmed only at the outer edges.  (With
two identical headers the second body overwrites the first and only one
entry remains, see the counterexample.) -/
theorem extract_sections_two_headers (content h1 h2 : Pstr) (b1 b2 : List Pstr)
    (hsplit : splitNL content = h1 :: (b1 ++ h2 :: b2))
    (hh1 : isHeaderLine h1 = true) (hh2 : isHeaderLine h2 = true)
    (hb1 : ∀ l ∈ b1, isHeaderLine l = false) (hb2 : ∀ l ∈ b2, isHeaderLine l = false)
    (hne1 : b1 ≠ []) (hne2 : b2 ≠ [])
    (hnd : stripP h1 ≠ stripP h2) :
    extract_sections content =
      [(stripP h1, stripP (joinNL b1)), (stripP h2, stripP (joinNL b2))] := by
  unfold extract_sections
  rw [hsplit]
  rw [sectionsLoop, if_pos hh1]
  rw [show flushSection [] (pstr "Introduction") [] = [] from rfl]
  rw [sectionsLoop_body b1 hb1 (h2 :: b2) [] (stripP h1) []]
  rw [sectionsLoop, if_pos hh2]
  have hf1 : flushSection [] (stripP h1) ([] ++ b1) =
      [(stripP h1, stripP (joinNL b1))] := by
    unfold flushSection dictSet
    rw [List.nil_append]
    rw [if_neg (by simp [List.isEmpty_iff, hne1])]
    rfl
  rw [hf1]
  rw [sectionsLoop_all_body b2 hb2 [(stripP h1, stripP (joinNL b1))] (stripP h2) []]
  unfold flushSection
  rw [if_neg (by simp [List.isEmpty_iff, hne2])]
  unfold dictSet
  rw [List.nil_append]
  rw [if_neg (by simp [hnd])]
  rfl

/-- Counterexample to claim C4 as stated: the document
`"AA\nb\nAA\nc"` has two header lines each followed by a body line,
yet `extract_sections` returns a single entry, because the second flush
overwrites the first under the duplicate title. -/
theorem extract_sections_two_headers_counterexample :
    splitNL (pstr "AA\nb\nAA\nc") = [pstr "AA", pstr "b", pstr "AA", pstr "c"] ∧
    isHeaderLine (pstr "AA") = true ∧
    isHeaderLine (pstr "b") = false ∧
    isHeaderLine (pstr "c") = false ∧
    extract_sections (pstr "AA\nb\nAA\nc") = [(pstr "AA", pstr "c")] := by
  decide

/-- Witness for C4: a two-header document with distinct headers yields
exactly the two expected entries. -/
theorem extract_sections_two_headers_witness :
    extract_sections (pstr "AA\nx\nBB\ny") =
      [(stripP (pstr "AA"), stripP (joinNL [pstr "x"])),
        (stripP (pstr "BB"), stripP (joinNL [pstr "y"]))] :=
  extract_sections_two_headers (pstr "AA\nx\nBB\ny") (pstr "AA") (pstr "BB")
    [pstr "x"] [pstr "y"] (by decide) (by decide) (by decide)
    (by decide) (by decide) (by decide) (by decide) (by decide)

/-- Claim C3: when the text-generation backend call errors,
`process_with_ai` does not raise — it returns the error description
embedded in an ordinary string result, and a caller formatting that
result into the report sees the error text inside the response body. -/
theorem process_with_ai_embeds_error (e : Pstr) (sel : List Pstr) (name : Pstr) :
    process_with_ai (Except.error e) =
      pstr "Error processing with AI: " ++ e ++
        pstr "\n\nPlease check your API configuration and try again." ∧
    ∃ pre post, format_response (process_with_ai (Except.error e)) sel name =
      pre ++ e ++ post := by
  refine ⟨rfl,
    pstr "# 📄 Document Analysis Results\n\n" ++ pstr "**Document:** " ++ name ++
      pstr "\n" ++ pstr "**Actions Completed:** " ++ natStr sel.length ++ pstr "\n\n" ++
      pstr "---\n\n" ++ pstr "Error processing with AI: ",
    pstr "\n\nPlease check your API configuration and try again." ++ pstr "\n\n---\n" ++
      pstr "*Analysis completed by MCP Document Processing Agent*", ?_⟩
  simp [format_response, process_with_ai, List.append_assoc]

/-- Helper: a selection of only unknown keys contributes no task
lines. -/
theorem taskLinesFrom_nil_of_unknown (sel : List Pstr)
    (h : ∀ k ∈ sel, findAction k = none) : ∀ i, taskLinesFrom i sel = [] := by
  induction sel with
  | nil => intro i; rfl
  | cons k ks ih =>
    intro i
    have hk : findAction k = none := h k (List.mem_cons_self _ _)
    simp only [taskLinesFrom, hk]
    exact ih (fun x hx => h x (List.mem_cons_of_mem _ hx)) (i + 1)

/-- Claim C5: `generate_prompt` on an empty selection returns the empty
string for any document, and on a non-empty selection of only unknown
keys returns the prompt whose numbered task list is empty while the
preamble, delimited document block, instruction block and closing line
are still present — with no failure path. -/
theorem generate_prompt_empty_and_unknown :
    (∀ doc : Pstr, generate_prompt doc [] = []) ∧
    (∀ (doc : Pstr) (sel : List Pstr), sel ≠ [] →
      (∀ k ∈ sel, findAction k = none) →
      generate_prompt doc sel = joinNL (promptHeaderParts doc ++ promptFooterParts)) := by
  constructor
  · intro doc; rfl
  · intro doc sel hne hunk
    unfold generate_prompt
    rw [if_neg (by simp [List.isEmpty_iff, hne])]
    rw [taskLinesFrom_nil_of_unknown sel hunk 1]
    rw [List.append_nil]

/-- Witness for C5 at concrete inputs: the empty selection and the
selection `["bogus"]`. -/
theorem generate_prompt_empty_and_unknown_witness :
    generate_prompt (pstr "") [] = [] ∧
    generate_prompt (pstr "doc") [pstr "bogus"] =
      joinNL (promptHeaderParts (pstr "doc") ++ promptFooterParts) :=
  ⟨generate_prompt_empty_and_unknown.1 (pstr ""),
    generate_prompt_empty_and_unknown.2 (pstr "doc") [pstr "bogus"] (by decide)
      (by decide)⟩

/-- Claim C6: `validate_content` reports `is_valid = true` exactly when
the trimmed content has at least 10 characters and the content is
UTF-8-encodable; it fails for trimmed content shorter than 10
characters (hence also for content empty after trimming) and for
unencodable content. -/
theorem validate_content_is_valid_iff (content : Pstr) :
    (validate_content content).is_valid = true ↔
      (10 ≤ plen (stripP content) ∧ canEncodeUTF8 content = true) := by
  simp only [validate_content]
  split_ifs <;> simp_all

/-- Helper: testing a key against each catalog entry is the same as
membership among the catalog keys. -/
theorem any_fst_beq_eq_mem (l : List (Pstr × McpAction)) (k : Pstr) :
    (l.any fun p => p.1 == k) = decide (k ∈ l.map Prod.fst) := by
  induction l with
  | nil => rfl
  | cons p ps ih =>
    simp only [List.any_cons, List.map_cons, List.mem_cons, ih]
    by_cases h : p.1 = k
    · simp [h]
    · simp [h, Ne.symm h]

set_option maxRecDepth 2000 in
/-- Claim C7: `validate_actions` returns exactly the subsequence of its
input keys that are present in the catalog, in input order, dropping
unknown keys without error; in particular on
`["summarize", "bogus", "analyze"]` it returns
`["summarize", "analyze"]`. -/
theorem validate_actions_filters_catalog :
    validate_actions [pstr "summarize", pstr "bogus", pstr "analyze"] =
      [pstr "summarize", pstr "analyze"] ∧
    (∀ keys : List Pstr, validate_actions keys =
      keys.filter (fun k => decide (k ∈ actionsCatalog.map Prod.fst))) ∧
    (∀ keys : List Pstr, List.Sublist (validate_actions keys) keys) := by
  refine ⟨by decide, ?_, ?_⟩
  · intro keys
    unfold validate_actions
    apply List.filter_congr
    intro k _
    exact any_fst_beq_eq_mem actionsCatalog k
  · intro keys
    exact List.filter_sublist _

set_option maxRecDepth 4000 in
/-- Claim C8: `format_response` returns the header block with the
document name and the count of selected actions, a horizontal rule, the
raw response verbatim, a closing rule and the fixed attribution footer;
on response `"X"`, one selected action and name `"test.txt"` it
produces exactly the string of the specification. -/
theorem format_response_envelope :
    (∀ (resp : Pstr) (sel : List Pstr) (name : Pstr),
      format_response resp sel name =
        (pstr "# 📄 Document Analysis Results\n\n**Document:** " ++ name ++
          pstr "\n**Actions Completed:** " ++ natStr sel.length ++ pstr "\n\n---\n\n")
          ++ resp ++
          pstr "\n\n---\n*Analysis completed by MCP Document Processing Agent*") ∧
    format_response (pstr "X") [pstr "summarize"] (pstr "test.txt") =
      pstr "# 📄 Document Analysis Results\n\n**Document:** test.txt\n**Actions Completed:** 1\n\n---\n\nX\n\n---\n*Analysis completed by MCP Document Processing Agent*" := by
  constructor
  · intro resp sel name
    have h1 : pstr "# 📄 Document Analysis Results\n\n**Document:** " =
        pstr "# 📄 Document Analysis Results\n\n" ++ pstr "**Document:** " := by rfl
    have h2 : pstr "\n**Actions Completed:** " =
        pstr "\n" ++ pstr "**Actions Completed:** " := by rfl
    have h3 : pstr "\n\n---\n\n" = pstr "\n\n" ++ pstr "---\n\n" := by rfl
    have h4 : pstr "\n\n---\n*Analysis completed by MCP Document Processing Agent*" =
        pstr "\n\n---\n" ++ pstr "*Analysis completed by MCP Document Processing Agent*" := by
      rfl
    rw [h1, h2, h3, h4]
    simp [format_response, List.append_assoc]
  · decide

/-- Helper: a known key at any position of the selection contributes a
task line numbered by its position, counted from the loop's starting
index, with skipped unknown keys still consuming their number. -/
theorem taskLinesFrom_mem_of_found :
    ∀ (pre : List Pstr) (i : Nat) (k : Pstr) (post : List Pstr) (a : McpAction),
      findAction k = some a →
      (natStr (i + pre.length) ++ pstr ". " ++ a.action_label ++ pstr ": " ++
        a.action_instr) ∈ taskLinesFrom i (pre ++ k :: post) := by
  intro pre
  induction pre with
  | nil =>
    intro i k post a hk
    simp only [List.nil_append, List.length_nil, Nat.add_zero, taskLinesFrom, hk]
    exact List.mem_cons_self _ _
  | cons p ps ih =>
    intro i k post a hk
    have hmem := ih (i + 1) k post a hk
    have harith : i + 1 + ps.length = i + (p :: ps).length := by
      simp only [List.length_cons]
      omega
    rw [harith] at hmem
    rw [List.cons_append]
    cases hp : findAction p with
    | some b =>
      simp only [taskLinesFrom, hp]
      exact List.mem_cons_of_mem _ hmem
    | none =>
      simp only [taskLinesFrom, hp]
      exact hmem

/-- Claim C9: in the prompt built by `generate_prompt`, the number
prefixed to each task line is the key's 1-based position in the input
selection, counting skipped unknown keys; the selection
`["summarize", "bogus", "analyze"]` yields exactly the two lines
numbered 1 and 3, with no line numbered 2. -/
theorem generate_prompt_numbering :
    (∀ (doc : Pstr) (sel : List Pstr), sel.isEmpty = false →
      generate_prompt doc sel =
        joinNL (promptHeaderParts doc ++ taskLinesFrom 1 sel ++ promptFooterParts)) ∧
    (∀ (pre : List Pstr) (k : Pstr) (post : List Pstr) (a : McpAction),
      findAction k = some a →
      (natStr (pre.length + 1) ++ pstr ". " ++ a.action_label ++ pstr ": " ++
        a.action_instr) ∈ taskLinesFrom 1 (pre ++ k :: post)) ∧
    taskLinesFrom 1 [pstr "summarize", pstr "bogus", pstr "analyze"] =
      [pstr "1. Summarize Document: Please provide a detailed summary of this document, highlighting the main points and key information.",
        pstr "3. Analyze Content: Please analyze this document in detail, including themes, tone, writing style, structure, and any notable patterns or insights."] := by
  refine ⟨?_, ?_, by decide⟩
  · intro doc sel h
    unfold generate_prompt
    rw [if_neg (by simp [h])]
  · intro pre k post a hk
    have hmem := taskLinesFrom_mem_of_found pre 1 k post a hk
    rwa [Nat.add_comm] at hmem

/-- Witness for C9: the known key `"analyze"` in third position (after
the skipped `"bogus"`) produces the line numbered 3. -/
theorem generate_prompt_numbering_witness :
    (natStr (List.length [pstr "summarize", pstr "bogus"] + 1) ++ pstr ". " ++
      pstr "Analyze Content" ++ pstr ": " ++
      pstr "Please analyze this document in detail, including themes, tone, writing style, structure, and any notable patterns or insights.")
      ∈ taskLinesFrom 1 ([pstr "summarize", pstr "bogus"] ++ pstr "analyze" :: []) :=
  generate_prompt_numbering.2.1 [pstr "summarize", pstr "bogus"] (pstr "analyze") []
    ⟨pstr "Analyze Content",
      pstr "Perform in-depth analysis of themes, tone, and structure",
      pstr "Please analyze this document in detail, including themes, tone, writing style, structure, and any notable patterns or insights."⟩
    (by decide)

/-- Claim C10: `sanitize_filename` replaces every occurrence of the
characters `< > : " / \ | ? *` with an underscore and returns the
substituted name whenever it is at most 255 characters long; for longer
names the truncation branch references the unimported name `os`, so the
call raises `NameError` instead of returning a truncated name. -/
theorem sanitize_filename_spec (filename : Pstr) :
    (plen filename ≤ 255 →
      sanitize_filename filename =
        some (filename.map (fun c => if badFilenameChar c then 95 else c))) ∧
    (255 < plen filename → sanitize_filename filename = none) := by
  constructor
  · intro h
    unfold sanitize_filename
    rw [if_pos (by unfold plen at *; simpa using h)]
  · intro h
    unfold sanitize_filename
    rw [if_neg (by unfold plen at *; simp; omega)]

set_option maxRecDepth 2000 in
/-- Witness for C10: a short name with dangerous characters is
substituted, a 300-character name fails. -/
theorem sanitize_filename_spec_witness :
    sanitize_filename (pstr "a<b:c.txt") = some (pstr "a_b_c.txt") ∧
    sanitize_filename (List.replicate 300 97) = none := by
  constructor
  · have h := (sanitize_filename_spec (pstr "a<b:c.txt")).1 (by decide)
    rw [h]
    decide
  · exact (sanitize_filename_spec (List.replicate 300 97)).2 (by decide)
